import Mathlib

/-!
Verification of napari-spatialdata's coordinate-system-aware layer lifecycle
and metadata-synchronization engine, against its natural-language specification.

The Lean definitions below are a shallow embedding of the Python source:
  src/napari_spatialdata/_viewer.py        (SpatialDataViewer)
  src/napari_spatialdata/_sdata_widgets.py (SdataWidget)
  src/napari_spatialdata/utils/_utils.py   (catalog / transform helpers)
Python lists become Lean lists, numpy index arrays become lists of naturals,
dataset handles (compared by object identity in Python) become natural-number
ids, Python exceptions become an explicit error type in an Except result, and
the pseudo-random subsample drawn by numpy's RNG becomes an explicit argument
constrained by the properties numpy guarantees (distinct indices below the
population size).
-/

namespace NapariSpatialdata

/-- The four element / layer kinds of the data model
(napari Image, Labels, Points, Shapes). -/
inductive LayerKind where
  | image
  | labels
  | points
  | shapes
deriving DecidableEq, Repr

/-! ## Edit-cache index translation

Embedding of `SpatialDataViewer._update_cache_indices` (_viewer.py, lines
90-114), restricted to the `ActionType.REMOVE` path: the viewer-local removed
positions (`event.data_indices`) are sorted in descending order, translated to
dataset row identities through `event.source.metadata["indices"]` (the row
index map), those positions are deleted from the map by repeated positional
`del`, and the translated event is appended to the layer's event cache. -/

/-- `sorted(event.data_indices, reverse=True)`: a stable descending sort
(insertion sort is stable, like Python's sort). -/
def sortDesc (l : List Nat) : List Nat :=
  l.insertionSort (· ≥ ·)

/-- Result of handling a remove edit event: the updated `metadata["indices"]`
row index map and the dataset-row identities recorded on the cached event. -/
structure RemoveResult where
  rowIndexMap : List Nat
  cachedEventIndices : List Nat
deriving DecidableEq, Repr

/-- The REMOVE branch of `SpatialDataViewer._update_cache_indices`:
`napari_indices = sorted(event.data_indices, reverse=True)`;
`event.indices = tuple(metadata["indices"][i] for i in napari_indices)`;
`for i in napari_indices: del metadata["indices"][i]`.
Python's `del lst[i]` is `List.eraseIdx`. -/
def update_cache_indices_remove (indices : List Nat) (dataIndices : List Nat) :
    RemoveResult :=
  let napariIndices := sortDesc dataIndices
  { rowIndexMap := napariIndices.foldl (fun acc i => acc.eraseIdx i) indices
    cachedEventIndices := napariIndices.map (fun i => indices.getD i 0) }

/-- Specification-side description of "delete those entries from the map":
keep, in order, exactly the entries of `m` whose position is not removed.
`keepAux ps m k` filters `m` whose first element sits at position `k`. -/
def keepAux (ps : List Nat) : List Nat → Nat → List Nat
  | [], _ => []
  | a :: as, k => if k ∈ ps then keepAux ps as (k + 1)
                  else a :: keepAux ps as (k + 1)

/-- The entries of `m` at positions outside `ps`, in their original order. -/
def keepNotRemoved (ps : List Nat) (m : List Nat) : List Nat :=
  keepAux ps m 0

theorem keepAux_append (ps : List Nat) (xs ys : List Nat) (k : Nat) :
    keepAux ps (xs ++ ys) k = keepAux ps xs k ++ keepAux ps ys (k + xs.length) := by
  induction xs generalizing k with
  | nil => simp [keepAux]
  | cons a as ih =>
    have harith : k + 1 + as.length = k + (as.length + 1) := by omega
    simp only [List.cons_append, keepAux, List.length_cons, List.append_eq, ih, harith]
    by_cases h : k ∈ ps
    · rw [if_pos h, if_pos h]
    · rw [if_neg h, if_neg h, List.cons_append]

theorem keepAux_of_all_lt (ps : List Nat) (xs : List Nat) (k : Nat)
    (h : ∀ p ∈ ps, p < k) : keepAux ps xs k = xs := by
  induction xs generalizing k with
  | nil => rfl
  | cons a as ih =>
    have hk : k ∉ ps := fun hc => absurd (h k hc) (lt_irrefl k)
    simp only [keepAux, if_neg hk]
    exact congrArg (a :: ·) (ih (k + 1) (fun p hp => Nat.lt_succ_of_lt (h p hp)))

theorem keepAux_cons_of_out_of_range (p : Nat) (ps : List Nat) (xs : List Nat)
    (k : Nat) (h : k + xs.length ≤ p) :
    keepAux (p :: ps) xs k = keepAux ps xs k := by
  induction xs generalizing k with
  | nil => rfl
  | cons a as ih =>
    have hne : k ≠ p := by
      intro hkp
      subst hkp
      simp only [List.length_cons] at h
      omega
    have hlen : k + 1 + as.length ≤ p := by
      simp only [List.length_cons] at h
      omega
    have hmem : (k ∈ p :: ps) ↔ (k ∈ ps) := by
      simp [List.mem_cons, hne]
    by_cases hc : k ∈ ps
    · simp only [keepAux, if_pos hc, if_pos (hmem.mpr hc), ih _ hlen]
    · simp only [keepAux, if_neg hc, if_neg (fun hx => hc (hmem.mp hx)), ih _ hlen]

theorem keepAux_congr_mem (ps qs : List Nat) (xs : List Nat) (k : Nat)
    (h : ∀ a, a ∈ ps ↔ a ∈ qs) : keepAux ps xs k = keepAux qs xs k := by
  induction xs generalizing k with
  | nil => rfl
  | cons a as ih =>
    by_cases hk : k ∈ ps
    · simp only [keepAux, if_pos hk, if_pos ((h k).mp hk), ih]
    · simp only [keepAux, if_neg hk, if_neg (fun hx => hk ((h k).mpr hx)), ih]

/-- Deleting a strictly descending list of valid positions by repeated
positional deletion keeps exactly the entries whose position was not removed,
in their original order. This is why `_update_cache_indices` sorts
`event.data_indices` in reverse before the `del` loop. -/
theorem foldl_eraseIdx_eq_keepNotRemoved (ds : List Nat) (m : List Nat)
    (hsort : ds.Pairwise (· > ·)) (hlt : ∀ p ∈ ds, p < m.length) :
    ds.foldl (fun acc i => acc.eraseIdx i) m = keepNotRemoved ds m := by
  induction ds generalizing m with
  | nil => exact (keepAux_of_all_lt [] m 0 (by simp)).symm
  | cons p rest ih =>
    have hp : p < m.length := hlt p (List.mem_cons_self p rest)
    have hrest_gt : ∀ q ∈ rest, q < p := fun q hq => (List.pairwise_cons.mp hsort).1 q hq
    have hrest_sort : rest.Pairwise (· > ·) := (List.pairwise_cons.mp hsort).2
    have hrest_lt : ∀ q ∈ rest, q < (m.eraseIdx p).length := by
      intro q hq
      rw [List.length_eraseIdx, if_pos hp]
      have := hrest_gt q hq
      omega
    have hfold : (p :: rest).foldl (fun acc i => acc.eraseIdx i) m
        = rest.foldl (fun acc i => acc.eraseIdx i) (m.eraseIdx p) := rfl
    rw [hfold, ih (m.eraseIdx p) hrest_sort hrest_lt]
    have herase : m.eraseIdx p = List.take p m ++ List.drop (p + 1) m :=
      List.eraseIdx_eq_take_drop_succ m p
    have htklen : (List.take p m).length = p := by
      rw [List.length_take]
      omega
    have hm : m = List.take p m ++ m[p] :: List.drop (p + 1) m := by
      conv_lhs => rw [(List.take_append_drop p m).symm]
      rw [List.drop_eq_getElem_cons hp]
    unfold keepNotRemoved
    rw [herase, keepAux_append, htklen]
    conv_rhs => rw [hm]
    rw [keepAux_append, htklen]
    have h1 : keepAux (p :: rest) (List.take p m) 0 = keepAux rest (List.take p m) 0 :=
      keepAux_cons_of_out_of_range p rest (List.take p m) 0 (by omega)
    have h2 : keepAux rest (List.drop (p + 1) m) (0 + p) = List.drop (p + 1) m :=
      keepAux_of_all_lt rest _ _ (by intro q hq; have := hrest_gt q hq; omega)
    have h3 : keepAux (p :: rest) (m[p] :: List.drop (p + 1) m) (0 + p)
        = List.drop (p + 1) m := by
      have hpmem : (0 + p) ∈ p :: rest := by
        simp [List.mem_cons]
      simp only [keepAux, if_pos hpmem]
      exact keepAux_of_all_lt _ _ _ (by
        intro q hq
        rcases List.mem_cons.mp hq with hq | hq
        · omega
        · have := hrest_gt q hq
          omega)
    rw [h1, h2, h3]

theorem sortDesc_perm (l : List Nat) : (sortDesc l).Perm l :=
  List.perm_insertionSort (· ≥ ·) l

theorem sortDesc_pairwise_ge (l : List Nat) : (sortDesc l).Pairwise (· ≥ ·) :=
  List.sorted_insertionSort (· ≥ ·) l

theorem sortDesc_pairwise_gt (l : List Nat) (h : l.Nodup) :
    (sortDesc l).Pairwise (· > ·) := by
  have hnd : (sortDesc l).Nodup := ((sortDesc_perm l).symm.nodup h)
  exact ((sortDesc_pairwise_ge l).and hnd).imp
    (fun hab => lt_of_le_of_ne hab.1.le (Ne.symm hab.2))

theorem mem_sortDesc (l : List Nat) (a : Nat) : a ∈ sortDesc l ↔ a ∈ l :=
  (sortDesc_perm l).mem_iff

/-- C1. For every tracked point/shape layer, handling a remove edit event
translates the viewer-local removed positions to dataset row identities
through the layer's row_index_map processed in descending position order,
deletes those entries from the map (the updated map holds exactly the entries
whose position was not removed, in order), and the cached event references the
dataset row identities obtained through the map (as a multiset, the values of
the map at the removed positions) — never the raw viewer-local positions. -/
theorem claim_C1 (m ps : List Nat) (hnd : ps.Nodup) (hlt : ∀ p ∈ ps, p < m.length) :
    (update_cache_indices_remove m ps).rowIndexMap = keepNotRemoved ps m
    ∧ (update_cache_indices_remove m ps).cachedEventIndices
        = (sortDesc ps).map (fun i => m.getD i 0)
    ∧ (update_cache_indices_remove m ps).cachedEventIndices.Perm
        (ps.map (fun i => m.getD i 0)) := by
  refine ⟨?_, rfl, ?_⟩
  · have hsort : (sortDesc ps).Pairwise (· > ·) := sortDesc_pairwise_gt ps hnd
    have hlt' : ∀ p ∈ sortDesc ps, p < m.length :=
      fun p hp => hlt p ((mem_sortDesc ps p).mp hp)
    show (sortDesc ps).foldl (fun acc i => acc.eraseIdx i) m = keepNotRemoved ps m
    rw [foldl_eraseIdx_eq_keepNotRemoved (sortDesc ps) m hsort hlt']
    exact keepAux_congr_mem _ _ m 0 (mem_sortDesc ps)
  · exact (sortDesc_perm ps).map (fun i => m.getD i 0)

/-- C1 witness: the spec's concrete instance. From `row_index_map = [5,6,7,8]`,
removing viewer positions `{1,3}` yields `row_index_map = [5,7]` and a cached
event referencing dataset rows `{6,8}` (processed descending: `[8,6]`),
never the raw positions `{1,3}`. -/
theorem claim_C1_witness :
    (update_cache_indices_remove [5, 6, 7, 8] [1, 3]).rowIndexMap = [5, 7]
    ∧ (update_cache_indices_remove [5, 6, 7, 8] [1, 3]).cachedEventIndices = [8, 6]
    ∧ (update_cache_indices_remove [5, 6, 7, 8] [1, 3]).cachedEventIndices.Perm [6, 8] := by
  have h := claim_C1 [5, 6, 7, 8] [1, 3] (by decide) (by decide)
  refine ⟨h.1.trans (by decide), h.2.1.trans (by decide), h.2.2.trans (by decide)⟩

/-! ## Point layer construction and subsampling

Embedding of `SpatialDataViewer.add_sdata_points` (_viewer.py, lines 320-351).
The element's row count is `nPoints`. When `nPoints < 100000` the subsample is
`np.arange(nPoints)`; otherwise a subsampling notice is logged and the
subsample is `np.sort(gen.choice(nPoints, size=100000, replace=False))`.
The RNG draw is passed in as `draw`; numpy guarantees it holds 100000 distinct
indices below `nPoints`, which the theorems take as hypotheses. `np.sort` is a
stable ascending sort. The layer keeps `len(subsample)` rows and records
`metadata["indices"] = subsample.tolist()`, `metadata["_n_indices"] = nPoints`. -/

/-- `np.sort`, ascending. -/
def sortAsc (l : List Nat) : List Nat :=
  l.insertionSort (· ≤ ·)

/-- The fields of the added napari point layer that the claims are about. -/
structure PointsLayerSpec where
  rows : Nat
  indices : List Nat
  nIndices : Nat
  subsampleLogged : Bool
deriving DecidableEq, Repr

/-- `SpatialDataViewer.add_sdata_points`, with the materialized row count and
the RNG draw made explicit. -/
def add_sdata_points (nPoints : Nat) (draw : List Nat) : PointsLayerSpec :=
  if nPoints < 100000 then
    { rows := (List.range nPoints).length
      indices := List.range nPoints
      nIndices := nPoints
      subsampleLogged := false }
  else
    { rows := (sortAsc draw).length
      indices := sortAsc draw
      nIndices := nPoints
      subsampleLogged := true }

theorem sortAsc_perm (l : List Nat) : (sortAsc l).Perm l :=
  List.perm_insertionSort (· ≤ ·) l

theorem sortAsc_sorted (l : List Nat) : List.Sorted (· ≤ ·) (sortAsc l) :=
  List.sorted_insertionSort (· ≤ ·) l

theorem sortAsc_sorted_lt (l : List Nat) (h : l.Nodup) :
    List.Sorted (· < ·) (sortAsc l) :=
  (sortAsc_sorted l).lt_of_le ((sortAsc_perm l).symm.nodup h)

/-- A duplicate-free draw of `n` indices below `n`, sorted ascending, is the
identity sequence `[0..n-1]`. -/
theorem sortAsc_eq_range (n : Nat) (draw : List Nat) (hlen : draw.length = n)
    (hnd : draw.Nodup) (hmem : ∀ x ∈ draw, x < n) :
    sortAsc draw = List.range n := by
  have hsub : draw.Subperm (List.range n) :=
    List.subperm_of_subset hnd (fun x hx => List.mem_range.mpr (hmem x hx))
  have hperm : draw.Perm (List.range n) :=
    hsub.perm_of_length_le (by rw [hlen, List.length_range])
  exact List.eq_of_perm_of_sorted ((sortAsc_perm draw).trans hperm)
    (sortAsc_sorted draw) (List.pairwise_le_range n)

/-- C2. For every points element: whenever the row count `n` exceeds 100000,
building the point layer subsamples (for every draw of 100000 distinct
indices below `n`, as numpy's `choice` without replacement guarantees) to a
layer with exactly 100000 rows, a `row_index_map` of length 100000 that is
strictly increasing (sorted index set, relative row order preserved) and a
permutation of the drawn original row identities (never re-based to `0..n`),
and the subsampling notice is logged; and whenever `n` is below the
threshold no subsampling occurs, the layer has `n` rows, `row_index_map` is
the identity sequence `[0..n-1]`, and nothing is logged. The spec's 250000-
and 50000-row instances are the witness. -/
theorem claim_C2 (n : Nat) (draw : List Nat) :
    (100000 < n → draw.length = 100000 → draw.Nodup → (∀ x ∈ draw, x < n) →
      (add_sdata_points n draw).rows = 100000
      ∧ (add_sdata_points n draw).indices.length = 100000
      ∧ List.Sorted (· < ·) (add_sdata_points n draw).indices
      ∧ (add_sdata_points n draw).indices.Perm draw
      ∧ (add_sdata_points n draw).subsampleLogged = true)
    ∧ (n < 100000 →
      (add_sdata_points n draw).rows = n
      ∧ (add_sdata_points n draw).indices = List.range n
      ∧ (add_sdata_points n draw).subsampleLogged = false) := by
  constructor
  · intro hn hlen hnd _hmem
    have hbranch : ¬ (n < 100000) := by omega
    have hlen' : (sortAsc draw).length = 100000 := by
      rw [(sortAsc_perm draw).length_eq, hlen]
    refine ⟨?_, ?_, ?_, ?_, ?_⟩
    · simp only [add_sdata_points, if_neg hbranch]
      exact hlen'
    · simp only [add_sdata_points, if_neg hbranch]
      exact hlen'
    · simp only [add_sdata_points, if_neg hbranch]
      exact sortAsc_sorted_lt draw hnd
    · simp only [add_sdata_points, if_neg hbranch]
      exact sortAsc_perm draw
    · simp [add_sdata_points, if_neg hbranch]
  · intro hn
    refine ⟨?_, ?_, ?_⟩
    · simp [add_sdata_points, if_pos hn]
    · simp [add_sdata_points, if_pos hn]
    · simp [add_sdata_points, if_pos hn]

/-- C2 witness: the spec's instances. At 250000 rows the draw `[0..99999]`
(a valid output of `gen.choice(250000, size=100000, replace=False)`)
discharges the oversized-branch hypotheses; at 50000 rows no draw is needed
and `row_index_map` is the identity `[0..49999]`. -/
theorem claim_C2_witness :
    ((add_sdata_points 250000 (List.range 100000)).rows = 100000
      ∧ List.Sorted (· < ·) (add_sdata_points 250000 (List.range 100000)).indices
      ∧ (add_sdata_points 250000 (List.range 100000)).indices.Perm (List.range 100000)
      ∧ (add_sdata_points 250000 (List.range 100000)).subsampleLogged = true)
    ∧ ((add_sdata_points 50000 (List.range 100000)).rows = 50000
      ∧ (add_sdata_points 50000 (List.range 100000)).indices = List.range 50000
      ∧ (add_sdata_points 50000 (List.range 100000)).subsampleLogged = false) := by
  have h250 := (claim_C2 250000 (List.range 100000)).1 (by omega)
    (List.length_range 100000) (List.nodup_range 100000)
    (fun x hx => lt_of_lt_of_le (List.mem_range.mp hx) (by omega))
  have h50 := (claim_C2 50000 (List.range 100000)).2 (by omega)
  exact ⟨⟨h250.1, h250.2.2.1, h250.2.2.2.1, h250.2.2.2.2⟩, h50⟩

/-- C10. With exactly 100000 rows the guard `len(points) < 100000` is false,
so the subsampling branch runs and logs a notice; but drawing 100000 of
100000 indices without replacement and sorting them yields exactly the
identity `row_index_map` `[0..99999]`, and no row is lost. -/
theorem claim_C10 (draw : List Nat) (hlen : draw.length = 100000)
    (hnd : draw.Nodup) (hmem : ∀ x ∈ draw, x < 100000) :
    (add_sdata_points 100000 draw).subsampleLogged = true
    ∧ (add_sdata_points 100000 draw).indices = List.range 100000
    ∧ (add_sdata_points 100000 draw).rows = 100000 := by
  have h100 : ¬ (100000 < 100000) := by omega
  have hsorted := sortAsc_eq_range 100000 draw hlen hnd hmem
  refine ⟨?_, ?_, ?_⟩
  · simp [add_sdata_points, if_neg h100]
  · simp only [add_sdata_points, if_neg h100]
    exact hsorted
  · simp only [add_sdata_points, if_neg h100]
    rw [hsorted, List.length_range]

/-- C10 witness: the draw `[0..99999]` itself. -/
theorem claim_C10_witness :
    (add_sdata_points 100000 (List.range 100000)).subsampleLogged = true
    ∧ (add_sdata_points 100000 (List.range 100000)).indices = List.range 100000
    ∧ (add_sdata_points 100000 (List.range 100000)).rows = 100000 :=
  claim_C10 (List.range 100000) (List.length_range 100000) (List.nodup_range 100000)
    (fun _ hx => List.mem_range.mp hx)

/-! ## Saving a layer back into the dataset

Embedding of `SpatialDataViewer.save_to_sdata` (_viewer.py, lines 120-148)
and `SpatialDataViewer._update_metadata` (lines 150-155), for a single layer.
The savable condition in the source is
`if not layer.metadata["name"] and layer.metadata["sdata"]`: the layer must
have no prior element reference (`metadata["name"]` is None, spec:
"free layer", no prior dataset element reference) and must carry a dataset
handle (`metadata["sdata"]`, assigned by metadata inheritance).
Python exceptions become error values:
`NotImplementedError("updating existing elements will soon be supported")`
is the spec's `CannotSaveExistingElement`,
`ValueError("Cannot save a shapes layer with no shapes")` is the spec's
`EmptyGeometry`, and the bare `NotImplementedError` raised for Image/Labels
is the spec's `UnsupportedForCommit`. -/

/-- Errors raised by `save_to_sdata`. -/
inductive SaveError where
  | notImplementedUpdateExisting
  | valueErrorEmptyShapes
  | notImplementedRaster
deriving DecidableEq, Repr

/-- A transformation as written into the element store;
`save_to_sdata` always writes `{coordinate_system: Identity()}`. -/
inductive Transform where
  | identity
deriving DecidableEq, Repr

/-- The layer fields `save_to_sdata` reads. `dataCount` is `len(layer.data)`
(number of points, or of drawn polygons). `metaSdata` is the dataset handle. -/
structure SaveLayer where
  kind : LayerKind
  layerName : String
  dataCount : Nat
  metaName : Option String
  metaSdata : Option Nat
  currentCs : String
deriving DecidableEq, Repr

/-- What a successful save produced: the element written into the dataset's
store and the layer's refreshed tracking metadata
(`_update_metadata` plus the re-initialized event cache). -/
structure SavedState where
  targetSdata : Nat
  writtenName : String
  writtenKind : LayerKind
  geomCount : Nat
  transformations : List (String × Transform)
  metaName : Option String
  nIndices : Nat
  indices : List Nat
  eventCacheEmptied : Bool
deriving DecidableEq, Repr

/-- `SpatialDataViewer.save_to_sdata` for one layer. -/
def save_to_sdata (layer : SaveLayer) : Except SaveError SavedState :=
  match layer.metaName, layer.metaSdata with
  | none, some sd =>
    match layer.kind with
    | LayerKind.points =>
      Except.ok
        { targetSdata := sd
          writtenName := layer.layerName
          writtenKind := LayerKind.points
          geomCount := layer.dataCount
          transformations := [(layer.currentCs, Transform.identity)]
          metaName := some layer.layerName
          nIndices := layer.dataCount
          indices := List.range layer.dataCount
          eventCacheEmptied := true }
    | LayerKind.shapes =>
      if layer.dataCount = 0 then Except.error SaveError.valueErrorEmptyShapes
      else
        Except.ok
          { targetSdata := sd
            writtenName := layer.layerName
            writtenKind := LayerKind.shapes
            geomCount := layer.dataCount
            transformations := [(layer.currentCs, Transform.identity)]
            metaName := some layer.layerName
            nIndices := layer.dataCount
            indices := List.range layer.dataCount
            eventCacheEmptied := true }
    | LayerKind.image => Except.error SaveError.notImplementedRaster
    | LayerKind.labels => Except.error SaveError.notImplementedRaster
  | _, _ => Except.error SaveError.notImplementedUpdateExisting

/-- C3 counterexample. The claim says the save fails with `EmptyGeometry`
"when the layer has zero shapes/points at save time", but the source only
guards `len(layer.data) == 0` for Shapes layers: a free Points layer with
zero points is saved successfully (an empty points element is written),
refuting the claim at this input. -/
theorem claim_C3_counterexample :
    (save_to_sdata
        { kind := LayerKind.points, layerName := "pts", dataCount := 0,
          metaName := none, metaSdata := some 0, currentCs := "global" }).isOk = true
    ∧ save_to_sdata
        { kind := LayerKind.points, layerName := "pts", dataCount := 0,
          metaName := none, metaSdata := some 0, currentCs := "global" }
      ≠ Except.error SaveError.valueErrorEmptyShapes := by
  constructor
  · rfl
  · simp [save_to_sdata]

/-- C3 amended. The save succeeds only for point and polygon layers without a
prior dataset element reference (`metadata["name"]` must be None, i.e. a free
layer); it fails with `CannotSaveExistingElement` when the layer already has a
dataset element reference; it fails with `EmptyGeometry` only for a
shapes/polygon layer with zero shapes at save time (an empty free points layer
is saved without error); it fails with `UnsupportedForCommit` for free
image/label layers. -/
theorem claim_C3_amended (layer : SaveLayer) :
    (∀ s, save_to_sdata layer = Except.ok s →
      (layer.kind = LayerKind.points ∨ layer.kind = LayerKind.shapes)
        ∧ layer.metaName = none)
    ∧ (layer.metaName ≠ none →
        save_to_sdata layer = Except.error SaveError.notImplementedUpdateExisting)
    ∧ (layer.metaName = none → layer.metaSdata ≠ none →
        layer.kind = LayerKind.shapes → layer.dataCount = 0 →
        save_to_sdata layer = Except.error SaveError.valueErrorEmptyShapes)
    ∧ (layer.metaName = none → layer.metaSdata ≠ none →
        layer.kind = LayerKind.points →
        save_to_sdata layer ≠ Except.error SaveError.valueErrorEmptyShapes)
    ∧ (layer.metaName = none → layer.metaSdata ≠ none →
        (layer.kind = LayerKind.image ∨ layer.kind = LayerKind.labels) →
        save_to_sdata layer = Except.error SaveError.notImplementedRaster) := by
  obtain ⟨kind, nm, cnt, mn, ms, cs⟩ := layer
  refine ⟨?_, ?_, ?_, ?_, ?_⟩
  · intro s hs
    cases mn with
    | some n => exact absurd hs (by cases ms <;> cases kind <;> simp [save_to_sdata])
    | none =>
      cases ms with
      | none => exact absurd hs (by simp [save_to_sdata])
      | some sd =>
        refine ⟨?_, rfl⟩
        cases kind with
        | image => exact absurd hs (by simp [save_to_sdata])
        | labels => exact absurd hs (by simp [save_to_sdata])
        | points => exact Or.inl rfl
        | shapes => exact Or.inr rfl
  · intro hmn
    cases mn with
    | none => exact absurd rfl hmn
    | some n => cases ms <;> cases kind <;> simp [save_to_sdata]
  · intro hmn hms hk hcnt
    have hk' : kind = LayerKind.shapes := hk
    have hcnt' : cnt = 0 := hcnt
    subst hk'
    subst hcnt'
    cases mn with
    | some n => exact absurd hmn (by simp)
    | none =>
      cases ms with
      | none => exact absurd rfl hms
      | some sd => simp [save_to_sdata]
  · intro hmn hms hk
    have hk' : kind = LayerKind.points := hk
    subst hk'
    cases mn with
    | some n => exact absurd hmn (by simp)
    | none =>
      cases ms with
      | none => exact absurd rfl hms
      | some sd => simp [save_to_sdata]
  · intro hmn hms hk
    cases mn with
    | some n => exact absurd hmn (by simp)
    | none =>
      cases ms with
      | none => exact absurd rfl hms
      | some sd =>
        have hk' : kind = LayerKind.image ∨ kind = LayerKind.labels := hk
        rcases hk' with hk' | hk' <;> subst hk' <;> simp [save_to_sdata]

/-- C3 amended witness: a tracked points layer (prior element reference) fails
with the update-existing error, an empty free shapes layer fails with the
empty-shapes error, and a free image layer fails with the raster error. -/
theorem claim_C3_amended_witness :
    save_to_sdata
        { kind := LayerKind.points, layerName := "a", dataCount := 4,
          metaName := some "a", metaSdata := some 0, currentCs := "global" }
      = Except.error SaveError.notImplementedUpdateExisting
    ∧ save_to_sdata
        { kind := LayerKind.shapes, layerName := "b", dataCount := 0,
          metaName := none, metaSdata := some 0, currentCs := "global" }
      = Except.error SaveError.valueErrorEmptyShapes
    ∧ save_to_sdata
        { kind := LayerKind.image, layerName := "c", dataCount := 1,
          metaName := none, metaSdata := some 0, currentCs := "global" }
      = Except.error SaveError.notImplementedRaster := by
  refine ⟨?_, ?_, ?_⟩
  · exact (claim_C3_amended _).2.1 (by decide)
  · exact (claim_C3_amended _).2.2.1 rfl (by decide) rfl rfl
  · exact (claim_C3_amended _).2.2.2.2 rfl (by decide) (Or.inl rfl)

/-- C8. Committing a free polygon layer with `n` user-drawn polygons (n > 0)
writes into the dataset handle a new shapes element under the layer's display
name with geometry count `n` and the identity transform in the layer's current
coordinate system, and afterwards the layer is tracked against that dataset:
`metadata["name"]` is set, the event cache is re-initialized, and
`row_index_map` is the identity sequence `[0..n-1]` (so subsequent edits are
reconciled normally by `_update_cache_indices`). -/
theorem claim_C8 (n : Nat) (hn : 0 < n) (nm cs : String) (d : Nat) :
    ∃ s, save_to_sdata
        { kind := LayerKind.shapes, layerName := nm, dataCount := n,
          metaName := none, metaSdata := some d, currentCs := cs }
      = Except.ok s
    ∧ s.targetSdata = d
    ∧ s.writtenName = nm
    ∧ s.writtenKind = LayerKind.shapes
    ∧ s.geomCount = n
    ∧ s.transformations.lookup cs = some Transform.identity
    ∧ s.metaName = some nm
    ∧ s.indices = List.range n
    ∧ s.nIndices = n
    ∧ s.eventCacheEmptied = true := by
  have hne : ¬ (n = 0) := by omega
  refine ⟨{ targetSdata := d, writtenName := nm, writtenKind := LayerKind.shapes,
            geomCount := n, transformations := [(cs, Transform.identity)],
            metaName := some nm, nIndices := n, indices := List.range n,
            eventCacheEmptied := true }, ?_, rfl, rfl, rfl, rfl, ?_, rfl, rfl, rfl, rfl⟩
  · simp [save_to_sdata, hne]
  · simp [List.lookup]

/-- C8 witness: a free polygon layer with 3 polygons committed under
`"regionA"` in system `"global"`. -/
theorem claim_C8_witness :
    ∃ s, save_to_sdata
        { kind := LayerKind.shapes, layerName := "regionA", dataCount := 3,
          metaName := none, metaSdata := some 0, currentCs := "global" }
      = Except.ok s
    ∧ s.targetSdata = 0
    ∧ s.writtenName = "regionA"
    ∧ s.writtenKind = LayerKind.shapes
    ∧ s.geomCount = 3
    ∧ s.transformations.lookup "global" = some Transform.identity
    ∧ s.metaName = some "regionA"
    ∧ s.indices = List.range 3
    ∧ s.nIndices = 3
    ∧ s.eventCacheEmptied = true :=
  claim_C8 3 (by decide) "regionA" "global" 0

/-! ## Rename validation

Embedding of `SpatialDataViewer._validate_name` (_viewer.py, lines 61-88) for
a tracked layer. The regex pattern is `r" \[\d+\]$"`: a space, an opening
bracket, one or more digits, and a closing bracket at the end of the name.
`duplicate_pattern_found` is whether the candidate matches; `name_to_validate`
is the candidate with that suffix stripped. `sdata_names` are the element
names of the layer's own dataset (`sdata._gen_elements()`); `element_names`
is the full list of element names over all loaded datasets (second component
of `get_duplicate_element_names`); `sdata_index` is the index of the layer's
dataset in the loaded list. -/

/-- Match the reversed character list against the reversed pattern
`" \[\d+\]$"` and return the remaining (reversed) prefix on success. -/
def stripRevDupSuffix : List Char → Option (List Char)
  | ']' :: rest =>
    let digits := rest.takeWhile Char.isDigit
    let rest2 := rest.dropWhile Char.isDigit
    if digits.isEmpty then none
    else
      match rest2 with
      | '[' :: ' ' :: rest3 => some rest3
      | _ => none
  | _ => none

/-- `re.sub(r" \[\d+\]$", "", name)` paired with `re.search`: returns `some`
of the stripped name when the pattern matched, `none` otherwise. -/
def findDupPattern (s : String) : Option String :=
  (stripRevDupSuffix s.data.reverse).map (fun r => String.mk r.reverse)

/-- Outcome of the rename callback: the final layer name, and whether the
rename was reverted with a user notification (`show_info`). -/
structure RenameResult where
  finalName : String
  reverted : Bool
deriving DecidableEq, Repr

/-- `SpatialDataViewer._validate_name` for a layer whose metadata carries a
dataset (`sdata` truthy branch of the source). -/
def validate_name (sdataNames elementNames : List String) (sdataIndex : Nat)
    (oldName : String) (candidate : String) : RenameResult :=
  let found := (findDupPattern candidate).isSome
  let nameToValidate := (findDupPattern candidate).getD candidate
  if sdataNames.contains nameToValidate || found then
    { finalName := oldName, reverted := true }
  else if elementNames.contains nameToValidate then
    { finalName := nameToValidate ++ "_" ++ toString sdataIndex, reverted := false }
  else
    { finalName := candidate, reverted := false }

/-- C4 counterexample. The claim accepts unchanged any candidate that collides
only with a cross-dataset element name that is NOT a duplicate (per the
spec, a duplicate is a name occurring in more than one dataset). With
datasets `[["a"], ["foo"]]` the element name list is `["a", "foo"]` and
`"foo"` occurs exactly once, so it is not a duplicate; yet renaming a layer
of dataset 0 to `"foo"` yields `"foo_0"`, not an unchanged `"foo"`: the
source appends the index for a collision with ANY other dataset's element
name, duplicated or not. -/
theorem claim_C4_counterexample :
    (validate_name ["a"] ["a", "foo"] 0 "old" "foo").finalName = "foo_0"
    ∧ (validate_name ["a"] ["a", "foo"] 0 "old" "foo").finalName ≠ "foo"
    ∧ List.count "foo" ["a", "foo"] = 1 := by
  refine ⟨rfl, by decide, by decide⟩

/-- C4 amended. For a tracked layer of dataset index `i`: a candidate whose
suffix-stripped name collides with an element name of the layer's own dataset,
or which still carries the duplicate-suffix pattern, reverts to the previous
name with a user notification; a candidate whose stripped name collides with
any element name of the loaded datasets other than its own (duplicated across
datasets or not) is accepted with `"_" + i` appended; any other candidate is
accepted unchanged. -/
theorem claim_C4_amended (sdataNames elementNames : List String) (i : Nat)
    (oldName candidate : String) :
    (((findDupPattern candidate).getD candidate ∈ sdataNames
        ∨ (findDupPattern candidate).isSome = true) →
      validate_name sdataNames elementNames i oldName candidate
        = { finalName := oldName, reverted := true })
    ∧ ((findDupPattern candidate).getD candidate ∉ sdataNames →
        (findDupPattern candidate).isSome = false →
        (findDupPattern candidate).getD candidate ∈ elementNames →
        validate_name sdataNames elementNames i oldName candidate
          = { finalName := (findDupPattern candidate).getD candidate ++ "_" ++ toString i,
              reverted := false })
    ∧ ((findDupPattern candidate).getD candidate ∉ sdataNames →
        (findDupPattern candidate).isSome = false →
        (findDupPattern candidate).getD candidate ∉ elementNames →
        validate_name sdataNames elementNames i oldName candidate
          = { finalName := candidate, reverted := false }) := by
  refine ⟨?_, ?_, ?_⟩
  · intro h
    rcases h with h | h
    · simp [validate_name, h]
    · simp [validate_name, h]
  · intro h1 h2 h3
    simp [validate_name, h1, h2, h3]
  · intro h1 h2 h3
    simp [validate_name, h1, h2, h3]

/-- C4 amended witness: renaming a tracked layer of dataset D to a name
already used by another element of D reverts and notifies; a suffixed
candidate reverts; a cross-dataset collision gets the index appended; a fresh
name is accepted unchanged. -/
theorem claim_C4_amended_witness :
    validate_name ["cells", "img"] ["cells", "img", "foo"] 0 "cells" "img"
      = { finalName := "cells", reverted := true }
    ∧ validate_name ["cells"] ["cells", "foo"] 0 "cells" "blobs [0]"
      = { finalName := "cells", reverted := true }
    ∧ validate_name ["cells"] ["cells", "foo"] 0 "cells" "foo"
      = { finalName := "foo_0", reverted := false }
    ∧ validate_name ["cells"] ["cells", "foo"] 0 "cells" "fresh"
      = { finalName := "fresh", reverted := false } := by
  refine ⟨?_, ?_, ?_, ?_⟩
  · exact (claim_C4_amended ["cells", "img"] ["cells", "img", "foo"] 0 "cells" "img").1
      (Or.inl (by decide))
  · exact (claim_C4_amended ["cells"] ["cells", "foo"] 0 "cells" "blobs [0]").1
      (Or.inr (by decide))
  · exact (claim_C4_amended ["cells"] ["cells", "foo"] 0 "cells" "foo").2.1
      (by decide) (by decide) (by decide)
  · exact (claim_C4_amended ["cells"] ["cells", "foo"] 0 "cells" "fresh").2.2
      (by decide) (by decide) (by decide)

/-! ## Layer visibility on coordinate-system switch

Embedding of `SdataWidget._update_layer_visibility` (_sdata_widgets.py, lines
90-97), invoked on every coordinate-system click. `elements` is the element
widget's name-to-kind mapping for the newly selected coordinate system; the
handler walks the viewer layers and sets `visible = False` whenever the layer
name is absent from `elements` or the layer's class does not match the element
kind (`isinstance(ll, SpatialDataLayers[elements[ll.name]].value)`). -/

/-- The layer state read and written by the visibility handler; the
`_active_in_cs` metadata set is carried along to show it is untouched. -/
structure VisLayer where
  name : String
  kind : LayerKind
  visible : Bool
  activeInCs : List String
deriving DecidableEq, Repr

/-- `SdataWidget._update_layer_visibility`. -/
def update_layer_visibility (elements : List (String × LayerKind))
    (layers : List VisLayer) : List VisLayer :=
  layers.map fun l =>
    match elements.lookup l.name with
    | none => { l with visible := false }
    | some k => if l.kind = k then l else { l with visible := false }

/-- C5 counterexample. A layer visible in systems A and B
(`_active_in_cs = {A, B}`), on a switch to a system C in which it is not
present (`elements` of C does not list it), is set invisible — the handler
ignores `active_coordinate_systems` entirely, refuting the claim that the
layer "keeps its last visibility state as long as some member of its
active_coordinate_systems set is still active". -/
theorem claim_C5_counterexample :
    update_layer_visibility []
        [{ name := "L", kind := LayerKind.points, visible := true,
           activeInCs := ["A", "B"] }]
      = [{ name := "L", kind := LayerKind.points, visible := false,
           activeInCs := ["A", "B"] }] := by
  rfl

/-- C5 amended. On a coordinate-system switch, every layer whose name is
absent from the new system's element mapping (or whose kind mismatches the
mapped element kind) is made invisible regardless of its
`active_coordinate_systems`; a layer present with matching kind keeps its
visibility unchanged; and the handler never modifies
`active_coordinate_systems` (so the set indeed never shrinks — vacuously —
as a result of a coordinate-system switch). -/
theorem claim_C5_amended (elements : List (String × LayerKind))
    (layers : List VisLayer) :
    List.Forall₂
      (fun l l' =>
        l'.name = l.name ∧ l'.kind = l.kind ∧ l'.activeInCs = l.activeInCs
        ∧ (elements.lookup l.name = some l.kind → l'.visible = l.visible)
        ∧ (elements.lookup l.name ≠ some l.kind → l'.visible = false))
      layers (update_layer_visibility elements layers) := by
  induction layers with
  | nil => exact List.Forall₂.nil
  | cons l ls ih =>
    have hcons : update_layer_visibility elements (l :: ls)
        = (match elements.lookup l.name with
           | none => { l with visible := false }
           | some k => if l.kind = k then l else { l with visible := false })
          :: update_layer_visibility elements ls := rfl
    rw [hcons]
    refine List.Forall₂.cons ?_ ih
    cases hlk : elements.lookup l.name with
    | none =>
      exact ⟨rfl, rfl, rfl, fun hsome => absurd hsome (by simp), fun _ => rfl⟩
    | some k =>
      dsimp only
      by_cases hk : l.kind = k
      · rw [if_pos hk]
        exact ⟨rfl, rfl, rfl, fun _ => rfl, fun hne => absurd (by rw [hk]) hne⟩
      · rw [if_neg hk]
        refine ⟨rfl, rfl, rfl, ?_, fun _ => rfl⟩
        intro hsome
        exact absurd (Option.some_injective _ hsome).symm hk

/-! ## Metadata inheritance

Embedding of `SpatialDataViewer.inherit_metadata` (_viewer.py, lines
161-202). `sdatas = [layer.metadata["sdata"] for layer in layers if "sdata" in
layer.metadata]`; multiple distinct dataset identities (Python `is` on the
handles, here equality of handle ids) raise
`ValueError("Multiple different spatialdata object found ...")`
(the spec's `AmbiguousDatasetSelection`); an empty collection raises
`ValueError("No Spatialdata objects associated ...")`
(the spec's `NoDatasetInSelection`). Otherwise the first layer carrying a
handle is the reference layer, and every other selected Labels/Points/Shapes
layer without a handle inherits the handle, the reference layer's current
coordinate system (also as its new `_active_in_cs` singleton), and has its
element reference, `region_key` and index bookkeeping cleared. -/

/-- Errors raised by `inherit_metadata`. -/
inductive InheritError where
  | multipleDatasets
  | noDataset
deriving DecidableEq, Repr

/-- The metadata fields of a selected layer that `inherit_metadata` reads or
writes. `sdata = none` models the `"sdata"` key being absent. -/
structure InhLayer where
  kind : LayerKind
  sdata : Option Nat
  currentCs : String
  activeInCs : List String
  metaName : Option String
  regionKey : Option String
  nIndicesMeta : Option Nat
  indices : Option (List Nat)
deriving DecidableEq, Repr

/-- Whether `isinstance(layer, (Labels, Points, Shapes))` holds. -/
def trackableKind : LayerKind → Bool
  | LayerKind.labels => true
  | LayerKind.points => true
  | LayerKind.shapes => true
  | LayerKind.image => false

/-- The mutation applied to one qualifying layer inside the loop of
`inherit_metadata`, given the reference layer's handle and coordinate
system. -/
def inheritFrom (refSdata : Nat) (refCs : String) (l : InhLayer) : InhLayer :=
  if l.sdata = none ∧ trackableKind l.kind then
    { l with
      sdata := some refSdata
      currentCs := refCs
      activeInCs := [refCs]
      metaName := none
      regionKey := if l.kind = LayerKind.shapes ∨ l.kind = LayerKind.labels
                   then none else l.regionKey
      nIndicesMeta := if l.kind = LayerKind.shapes ∨ l.kind = LayerKind.points
                      then none else l.nIndicesMeta
      indices := if l.kind = LayerKind.shapes ∨ l.kind = LayerKind.points
                 then none else l.indices }
  else l

/-- `SpatialDataViewer.inherit_metadata`. The loop body only touches layers
with no `"sdata"` key, so excluding the reference layer (`layer != ref_layer`
in the source, where the reference layer always carries a handle) is already
implied. -/
def inherit_metadata (layers : List InhLayer) : Except InheritError (List InhLayer) :=
  let sdatas := layers.filterMap (fun l => l.sdata)
  match sdatas with
  | [] => Except.error InheritError.noDataset
  | s0 :: rest =>
    if rest.any (fun s => ¬ (s = s0)) then Except.error InheritError.multipleDatasets
    else
      match layers.find? (fun l => l.sdata.isSome) with
      | none => Except.error InheritError.noDataset
      | some ref => Except.ok (layers.map (inheritFrom s0 ref.currentCs))

theorem inheritFrom_updates (d : Nat) (cs : String) (l : InhLayer)
    (h1 : l.sdata = none) (h2 : trackableKind l.kind = true) :
    (inheritFrom d cs l).sdata = some d
    ∧ (inheritFrom d cs l).currentCs = cs
    ∧ (inheritFrom d cs l).activeInCs = [cs]
    ∧ (inheritFrom d cs l).metaName = none := by
  simp [inheritFrom, h1, h2]

theorem inheritFrom_skips (d : Nat) (cs : String) (l : InhLayer)
    (h : l.sdata ≠ none ∨ trackableKind l.kind = false) :
    inheritFrom d cs l = l := by
  rcases h with h | h
  · rw [inheritFrom, if_neg (fun hc => h hc.1)]
  · rw [inheritFrom, if_neg (fun hc => by rw [h] at hc; exact Bool.false_ne_true hc.2)]

/-- C6. Metadata inheritance over a selection of layers fails with
`NoDatasetInSelection` when no selected layer carries a dataset handle, fails
with `AmbiguousDatasetSelection` when the selected layers carry more than one
distinct dataset identity (handle ids), and otherwise succeeds, assigning the
common dataset handle and the reference layer's current coordinate system to
every selected trackable (points/shapes/labels) layer lacking a dataset
handle, while leaving every other layer untouched. -/
theorem claim_C6 (layers : List InhLayer) :
    (layers.filterMap (fun l => l.sdata) = [] →
      inherit_metadata layers = Except.error InheritError.noDataset)
    ∧ (∀ a b, a ∈ layers.filterMap (fun l => l.sdata) →
        b ∈ layers.filterMap (fun l => l.sdata) → a ≠ b →
        inherit_metadata layers = Except.error InheritError.multipleDatasets)
    ∧ (∀ d, layers.filterMap (fun l => l.sdata) ≠ [] →
        (∀ s ∈ layers.filterMap (fun l => l.sdata), s = d) →
        ∃ ref out, layers.find? (fun l => l.sdata.isSome) = some ref
          ∧ ref.sdata = some d
          ∧ inherit_metadata layers = Except.ok out
          ∧ List.Forall₂
              (fun l l' =>
                (l.sdata = none ∧ trackableKind l.kind = true →
                  l'.sdata = some d ∧ l'.currentCs = ref.currentCs
                    ∧ l'.activeInCs = [ref.currentCs] ∧ l'.metaName = none)
                ∧ ((l.sdata ≠ none ∨ trackableKind l.kind = false) → l' = l))
              layers out) := by
  refine ⟨?_, ?_, ?_⟩
  · intro hfm
    simp only [inherit_metadata, hfm]
  · intro a b ha hb hab
    rcases hfm : layers.filterMap (fun l => l.sdata) with _ | ⟨s0, rest⟩
    · rw [hfm] at ha
      exact absurd ha (List.not_mem_nil a)
    · rw [hfm] at ha hb
      have hany : rest.any (fun s => ¬ (s = s0)) = true := by
        rw [List.any_eq_true]
        by_cases has0 : a = s0
        · have hbs0 : b ≠ s0 := fun hx => hab (has0 ▸ hx ▸ rfl)
          have hbrest : b ∈ rest := by
            rcases List.mem_cons.mp hb with h | h
            · exact absurd h hbs0
            · exact h
          exact ⟨b, hbrest, by simpa using hbs0⟩
        · have harest : a ∈ rest := by
            rcases List.mem_cons.mp ha with h | h
            · exact absurd h has0
            · exact h
          exact ⟨a, harest, by simpa using has0⟩
      simp only [inherit_metadata, hfm]
      rw [if_pos hany]
  · intro d hne hall
    rcases hfm : layers.filterMap (fun l => l.sdata) with _ | ⟨s0, rest⟩
    · exact absurd hfm hne
    · have hs0 : s0 = d := hall s0 (by rw [hfm]; exact List.mem_cons_self s0 rest)
      subst hs0
      have hany : rest.any (fun s => ¬ (s = s0)) = false := by
        rw [Bool.eq_false_iff]
        intro hx
        rcases List.any_eq_true.mp hx with ⟨x, hxmem, hxne⟩
        have hxd : x = s0 := hall x (by rw [hfm]; exact List.mem_cons_of_mem s0 hxmem)
        simp [hxd] at hxne
      rcases hfind : layers.find? (fun l => l.sdata.isSome) with _ | ref
      · exfalso
        have hnone : ∀ x ∈ layers, ¬ ((fun l : InhLayer => l.sdata.isSome) x = true) :=
          List.find?_eq_none.mp hfind
        have : layers.filterMap (fun l => l.sdata) = [] := by
          rw [List.filterMap_eq_nil_iff]
          intro x hx
          rcases hopt : x.sdata with _ | v
          · rfl
          · exact absurd (by simp [hopt]) (hnone x hx)
        exact hne this
      · have hrefmem : ref ∈ layers := List.mem_of_find?_eq_some hfind
        have hrefsome := List.find?_some hfind
        have hrefd : ref.sdata = some s0 := by
          rcases hopt : ref.sdata with _ | v
          · exfalso
            simp only [hopt, Option.isSome_none] at hrefsome
            exact Bool.false_ne_true hrefsome
          · have hv : v ∈ layers.filterMap (fun l => l.sdata) :=
              List.mem_filterMap.mpr ⟨ref, hrefmem, hopt⟩
            rw [hall v hv]
        refine ⟨ref, layers.map (inheritFrom s0 ref.currentCs), hfind, hrefd, ?_, ?_⟩
        · simp only [inherit_metadata, hfm]
          rw [if_neg (by rw [hany]; exact Bool.false_ne_true), hfind]
        · rw [List.forall₂_map_right_iff, List.forall₂_same]
          intro l _
          exact ⟨fun hc => inheritFrom_updates s0 ref.currentCs l hc.1 hc.2,
                 fun h => inheritFrom_skips s0 ref.currentCs l h⟩

/-- A tracked circles layer on dataset handle 7 (the reference layer of the
C6 witness selection). -/
def c6TrackedLayer : InhLayer :=
  { kind := LayerKind.shapes, sdata := some 7, currentCs := "global",
    activeInCs := ["global"], metaName := some "circles",
    regionKey := some "rk", nIndicesMeta := some 4, indices := some [0, 1, 2, 3] }

/-- A free points layer (no dataset handle) in the C6 witness selection. -/
def c6FreeLayer : InhLayer :=
  { kind := LayerKind.points, sdata := none, currentCs := "x",
    activeInCs := [], metaName := none, regionKey := none,
    nIndicesMeta := none, indices := none }

/-- A tracked labels layer on the distinct dataset handle 8. -/
def c6OtherDatasetLayer : InhLayer :=
  { kind := LayerKind.labels, sdata := some 8, currentCs := "global",
    activeInCs := ["global"], metaName := some "lab",
    regionKey := some "ik", nIndicesMeta := none, indices := none }

/-- C6 witness: a tracked layer on handle 7 plus a free points layer inherit
successfully (the free layer acquires handle 7 and the reference coordinate
system); layers on the two distinct handles 7 and 8 raise the ambiguity
error; a selection with no dataset handle raises the no-dataset error. -/
theorem claim_C6_witness :
    (∃ ref out,
      List.find? (fun l => l.sdata.isSome) [c6TrackedLayer, c6FreeLayer] = some ref
      ∧ ref.sdata = some 7
      ∧ inherit_metadata [c6TrackedLayer, c6FreeLayer] = Except.ok out
      ∧ List.Forall₂
          (fun l l' =>
            (l.sdata = none ∧ trackableKind l.kind = true →
              l'.sdata = some 7 ∧ l'.currentCs = ref.currentCs
                ∧ l'.activeInCs = [ref.currentCs] ∧ l'.metaName = none)
            ∧ ((l.sdata ≠ none ∨ trackableKind l.kind = false) → l' = l))
          [c6TrackedLayer, c6FreeLayer] out)
    ∧ inherit_metadata [c6TrackedLayer, c6OtherDatasetLayer]
        = Except.error InheritError.multipleDatasets
    ∧ inherit_metadata [c6FreeLayer] = Except.error InheritError.noDataset := by
  refine ⟨?_, ?_, ?_⟩
  · exact (claim_C6 [c6TrackedLayer, c6FreeLayer]).2.2 7 (by decide) (by decide)
  · exact (claim_C6 [c6TrackedLayer, c6OtherDatasetLayer]).2.1 7 8
      (by decide) (by decide) (by decide)
  · exact (claim_C6 [c6FreeLayer]).1 (by decide)

/-! ## Element catalog

Embedding of `get_duplicate_element_names` (utils/_utils.py, lines 307-322)
and `get_elements_meta_mapping` (lines 325-369). A dataset is its
`_gen_elements()` enumeration: an ordered list of elements, each with a kind,
a name, and the coordinate systems it is presentable in
(`filter_by_coordinate_system` keeps the elements carrying a transform into
the chosen system). The Python dict built by `get_elements_meta_mapping` is
modeled as its insertion-ordered entry list; the claims only concern its key
set. -/

/-- One element of a dataset, as yielded by `_gen_elements`. -/
structure CatElement where
  kind : LayerKind
  name : String
  css : List String
deriving DecidableEq, Repr

/-- A dataset, reduced to its ordered element enumeration. -/
abbrev CatSData := List CatElement

/-- Element metadata recorded by the catalog for one display name. -/
structure ElemMeta where
  kind : LayerKind
  sdataIndex : Nat
  originalName : String
deriving DecidableEq, Repr

/-- The concatenated element-name list over all loaded datasets
(`element_names` in `get_duplicate_element_names`). -/
def genElementNames (sdatas : List CatSData) : List String :=
  (sdatas.map (fun sd => sd.map (fun e => e.name))).flatten

/-- `get_duplicate_element_names`: the names whose total count exceeds one
(`Counter` keys with count > 1, in first-occurrence order), paired with the
full name list. -/
def get_duplicate_element_names (sdatas : List CatSData) :
    List String × List String :=
  let names := genElementNames sdatas
  (names.dedup.filter (fun n => 1 < names.count n), names)

/-- `sdata.filter_by_coordinate_system(cs)._gen_elements()`. -/
def filter_by_coordinate_system (cs : String) (sd : CatSData) : CatSData :=
  sd.filter (fun e => cs ∈ e.css)

/-- `get_elements_meta_mapping`: for each dataset in order and each element
presentable in `cs`, an entry whose key is the element name, suffixed with
`"_" + dataset_index` exactly when the name is in the duplicates list. -/
def get_elements_meta_mapping (sdatas : List CatSData) (cs : String) :
    List (String × ElemMeta) :=
  sdatas.enum.flatMap (fun p =>
    (filter_by_coordinate_system cs p.2).map (fun e =>
      (if e.name ∈ (get_duplicate_element_names sdatas).1
       then e.name ++ "_" ++ toString p.1
       else e.name,
       { kind := e.kind, sdataIndex := p.1, originalName := e.name })))

/-- The datasets in which the name `n` occurs. -/
def datasetsContaining (sdatas : List CatSData) (n : String) : List CatSData :=
  sdatas.filter (fun sd => n ∈ sd.map (fun e => e.name))

/-- Under per-dataset name uniqueness, the total count of a name over all
datasets is the number of datasets containing it. -/
theorem count_genElementNames (sdatas : List CatSData) (n : String)
    (hnodup : ∀ sd ∈ sdatas, (sd.map (fun e => e.name)).Nodup) :
    (genElementNames sdatas).count n = (datasetsContaining sdatas n).length := by
  induction sdatas with
  | nil => rfl
  | cons sd rest ih =>
    have hjoin : genElementNames (sd :: rest)
        = sd.map (fun e => e.name) ++ genElementNames rest := by
      simp [genElementNames]
    have hrest : ∀ s ∈ rest, (s.map (fun e => e.name)).Nodup :=
      fun s hs => hnodup s (List.mem_cons_of_mem sd hs)
    rw [hjoin, List.count_append, ih hrest]
    by_cases hmem : n ∈ sd.map (fun e => e.name)
    · rw [List.count_eq_one_of_mem (hnodup sd (List.mem_cons_self sd rest)) hmem]
      have heq : datasetsContaining (sd :: rest) n = sd :: datasetsContaining rest n := by
        unfold datasetsContaining
        rw [List.filter_cons, if_pos (by exact decide_eq_true hmem)]
      rw [heq, List.length_cons]
      omega
    · rw [List.count_eq_zero_of_not_mem hmem]
      have heq : datasetsContaining (sd :: rest) n = datasetsContaining rest n := by
        unfold datasetsContaining
        rw [List.filter_cons, if_neg (by simpa using hmem)]
      rw [heq]
      omega

/-- Membership in the duplicates list is exactly a total count above one. -/
theorem mem_duplicates_iff (sdatas : List CatSData) (n : String) :
    n ∈ (get_duplicate_element_names sdatas).1
      ↔ 1 < (genElementNames sdatas).count n := by
  constructor
  · intro h
    rcases List.mem_filter.mp h with ⟨_, hc⟩
    simpa using hc
  · intro h
    refine List.mem_filter.mpr ⟨List.mem_dedup.mpr ?_, by simpa using h⟩
    exact List.count_pos_iff.mp (by omega)

/-- The spec's concrete catalog scenario: two datasets, each containing one
element named `"cells"` presentable in coordinate system `"global"`. -/
def twoCellsDatasets : List CatSData :=
  [[{ kind := LayerKind.image, name := "cells", css := ["global"] }],
   [{ kind := LayerKind.labels, name := "cells", css := ["global"] }]]

/-- C7. For every ordered dataset list (with names unique inside each
dataset) and coordinate system: every presentable element whose name occurs
in more than one dataset is cataloged under
`original_name + "_" + dataset_index`, and every presentable element whose
name occurs in at most one dataset is cataloged under its unchanged name;
in the two-`"cells"` scenario the catalog keys are exactly
`["cells_0", "cells_1"]` and never a bare `"cells"`. -/
theorem claim_C7 (sdatas : List CatSData) (cs : String)
    (hnodup : ∀ sd ∈ sdatas, (sd.map (fun e => e.name)).Nodup) :
    (∀ i sd e, sdatas[i]? = some sd →
      e ∈ filter_by_coordinate_system cs sd →
      (1 < (datasetsContaining sdatas e.name).length →
        (e.name ++ "_" ++ toString i,
          ({ kind := e.kind, sdataIndex := i, originalName := e.name } : ElemMeta))
          ∈ get_elements_meta_mapping sdatas cs)
      ∧ ((datasetsContaining sdatas e.name).length ≤ 1 →
        (e.name,
          ({ kind := e.kind, sdataIndex := i, originalName := e.name } : ElemMeta))
          ∈ get_elements_meta_mapping sdatas cs))
    ∧ (get_elements_meta_mapping twoCellsDatasets "global").map Prod.fst
        = ["cells_0", "cells_1"]
    ∧ "cells" ∉ (get_elements_meta_mapping twoCellsDatasets "global").map Prod.fst := by
  refine ⟨?_, by decide, by decide⟩
  intro i sd e hget he
  have henum : (i, sd) ∈ sdatas.enum := List.mem_enum_iff_getElem?.mpr hget
  have hcount := count_genElementNames sdatas e.name hnodup
  constructor
  · intro hdup
    have hmemdup : e.name ∈ (get_duplicate_element_names sdatas).1 :=
      (mem_duplicates_iff sdatas e.name).mpr (by rw [hcount]; exact hdup)
    refine List.mem_flatMap.mpr ⟨(i, sd), henum, List.mem_map.mpr ⟨e, he, ?_⟩⟩
    rw [if_pos hmemdup]
  · intro hle
    have hnomem : e.name ∉ (get_duplicate_element_names sdatas).1 := by
      intro hx
      have := (mem_duplicates_iff sdatas e.name).mp hx
      rw [hcount] at this
      omega
    refine List.mem_flatMap.mpr ⟨(i, sd), henum, List.mem_map.mpr ⟨e, he, ?_⟩⟩
    rw [if_neg hnomem]

/-- C7 witness: instantiating the catalog theorem on the two-`"cells"`
scenario at dataset index 1 gives the suffixed key `"cells_1"`. -/
theorem claim_C7_witness :
    ("cells_1",
      ({ kind := LayerKind.labels, sdataIndex := 1, originalName := "cells" } : ElemMeta))
      ∈ get_elements_meta_mapping twoCellsDatasets "global"
    ∧ (get_elements_meta_mapping twoCellsDatasets "global").map Prod.fst
        = ["cells_0", "cells_1"] := by
  have h := claim_C7 twoCellsDatasets "global" (by decide)
  refine ⟨?_, h.2.1⟩
  have h1 := (h.1 1 [{ kind := LayerKind.labels, name := "cells", css := ["global"] }]
      { kind := LayerKind.labels, name := "cells", css := ["global"] }
      (by rfl) (by decide)).1 (by decide)
  exact (by decide : ("cells" ++ "_" ++ toString (1 : Nat) : String) = "cells_1") ▸ h1

/-! ## Channel-axis ordering for raster layers

Embedding of `_adjust_channels_order` (utils/_utils.py, lines 225-276) for a
single-scale raster. A raster is its axis-name list and matching shape; the
source asserts `axes.index("c") == 0` whenever a channel axis is present
(assertion failure modeled as `none`), reads `n_channels = element.shape[0]`,
and only when `n_channels in [3, 4]` transposes to `("y", "x", "c")` and
reports `rgb = True`; otherwise the raster is returned unchanged with
`rgb = False`. -/

/-- A raster element: axis names and the matching shape. -/
structure Raster where
  axes : List String
  shape : List Nat
deriving DecidableEq, Repr

/-- `element.transpose("y", "x", "c")` on the rasters in scope
(axes `("c", "y", "x")`); any other axis layout fails. -/
def transpose_yxc (e : Raster) : Option Raster :=
  match e.axes, e.shape with
  | ["c", "y", "x"], [c, y, x] => some { axes := ["y", "x", "c"], shape := [y, x, c] }
  | _, _ => none

/-- `_adjust_channels_order`, returning the (possibly transposed) raster and
the rgb flag. -/
def adjust_channels_order (e : Raster) : Option (Raster × Bool) :=
  if "c" ∈ e.axes then
    if e.axes.head? = some "c" then
      let n := e.shape.headD 0
      if n = 3 ∨ n = 4 then (transpose_yxc e).map (fun r => (r, true))
      else some (e, false)
    else none
  else some (e, false)

/-- C9 counterexample. A 5-channel image with axes `("c", "y", "x")` is
returned with its channel axis still in FIRST position (and `rgb = False`):
the channel axis is not reordered to the last position, refuting the claim
that layer construction reorders the channel axis to the last position for
every element with a channel axis. -/
theorem claim_C9_counterexample :
    adjust_channels_order { axes := ["c", "y", "x"], shape := [5, 7, 9] }
      = some ({ axes := ["c", "y", "x"], shape := [5, 7, 9] }, false)
    ∧ (∀ r b, adjust_channels_order { axes := ["c", "y", "x"], shape := [5, 7, 9] }
          = some (r, b) → r.axes.getLast? ≠ some "c") := by
  refine ⟨rfl, ?_⟩
  intro r b h
  have hpair : (r, b) = ({ axes := ["c", "y", "x"], shape := [5, 7, 9] }, false) :=
    Option.some_injective _ (h.symm.trans rfl)
  have hr : r = { axes := ["c", "y", "x"], shape := [5, 7, 9] } :=
    congrArg Prod.fst hpair
  rw [hr]
  decide

/-- C9 amended. For a raster with axes `("c", "y", "x")` and channel count
`c`: exactly when `c` is 3 or 4, the output has the channel axis reordered to
the last position (axes `("y", "x", "c")`) and is marked color-renderable;
for any other channel count the raster is returned unchanged — channel axis
kept in first position — as a generic multi-channel raster (`rgb = false`);
a raster without a channel axis is likewise returned unchanged and not
color-renderable. -/
theorem claim_C9_amended (c y x : Nat) :
    ((c = 3 ∨ c = 4) →
      adjust_channels_order { axes := ["c", "y", "x"], shape := [c, y, x] }
        = some ({ axes := ["y", "x", "c"], shape := [y, x, c] }, true))
    ∧ (¬ (c = 3 ∨ c = 4) →
      adjust_channels_order { axes := ["c", "y", "x"], shape := [c, y, x] }
        = some ({ axes := ["c", "y", "x"], shape := [c, y, x] }, false))
    ∧ (∀ e : Raster, "c" ∉ e.axes → adjust_channels_order e = some (e, false)) := by
  refine ⟨?_, ?_, ?_⟩
  · intro hc
    simp [adjust_channels_order, transpose_yxc, hc]
  · intro hc
    simp [adjust_channels_order, transpose_yxc, hc]
  · intro e hc
    simp [adjust_channels_order, hc]

/-- C9 amended witness: a 3-channel raster is transposed to channel-last and
marked rgb; a 2-channel raster is returned unchanged and not rgb. -/
theorem claim_C9_amended_witness :
    adjust_channels_order { axes := ["c", "y", "x"], shape := [3, 8, 6] }
      = some ({ axes := ["y", "x", "c"], shape := [8, 6, 3] }, true)
    ∧ adjust_channels_order { axes := ["c", "y", "x"], shape := [2, 8, 6] }
      = some ({ axes := ["c", "y", "x"], shape := [2, 8, 6] }, false) := by
  constructor
  · exact (claim_C9_amended 3 8 6).1 (Or.inl rfl)
  · exact (claim_C9_amended 2 8 6).2.1 (by omega)
